/-
  Verification of the streetscape.gl telemetry loading core.

  This file shallowly embeds the two source files of the repository:
  - `src/modules/core/src/loaders/xviz-loader-interface.js`
    (the reactive key/value store and the `XVIZLoaderInterface` selectors), and
  - the GPS converter (`GPSConverter` with `_convertPoseEntry`,
    `_convertTrajectory`, `load`).

  JavaScript numbers are modelled by `JSNum` (finite rationals plus NaN and
  the two infinities); generic store values by `JSVal`, where composite
  values are represented by a reference identifier so that JS strict
  equality (`===`, reference equality on composites, never true on NaN)
  is the Boolean `strictEq`.
-/
import Mathlib

/-- A JavaScript number: a finite value (modelled as a rational), NaN,
or one of the two infinities. -/
inductive JSNum : Type
  | fin (q : ℚ)
  | nan
  | posInf
  | negInf
  deriving DecidableEq, Repr

/-- A JavaScript value as storable in the loader's `state` object:
`undefined`, `null`, booleans, numbers, strings, or a composite value
(object/array) identified by its reference id. -/
inductive JSVal : Type
  | undefined
  | null
  | bool (b : Bool)
  | num (n : JSNum)
  | str (s : String)
  | ref (id : ℕ)
  deriving DecidableEq, Repr

/-- JavaScript strict equality `===`: value equality on primitives except
that `NaN === NaN` is false, and reference equality on composites. -/
def strictEq : JSVal → JSVal → Bool
  | .undefined, .undefined => true
  | .null, .null => true
  | .bool a, .bool b => a == b
  | .num (.fin a), .num (.fin b) => a == b
  | .num .posInf, .num .posInf => true
  | .num .negInf, .num .negInf => true
  | .num .nan, _ => false
  | _, .num .nan => false
  | .str a, .str b => a == b
  | .ref a, .ref b => a == b
  | _, _ => false

/-- The spec's notion of "identical": value-equality for primitives
(so NaN is identical to NaN), reference-equality for composites.
This is plain decidable equality of `JSVal`. -/
def specIdentical (a b : JSVal) : Bool := a == b

/-- The reactive key/value store of `XVIZLoaderInterface`
(`state`, `_version`, `listeners`).  Listeners are identified by a
natural number; the store only ever calls them with the current version. -/
structure ReactiveStore : Type where
  state : List (String × JSVal)
  version : ℕ
  listeners : List ℕ
  deriving DecidableEq, Repr

/-- `get(key)`: `this.state[key]`, which is `undefined` when absent. -/
def ReactiveStore.get (s : ReactiveStore) (key : String) : JSVal :=
  (s.state.lookup key).getD .undefined

/-- Update the binding of `key` in an association list (insert in front if
absent, replace the first occurrence otherwise) — the effect of a JS
`obj[key] = value` assignment. -/
def setAssoc {α : Type} (key : String) (value : α) :
    List (String × α) → List (String × α)
  | [] => [(key, value)]
  | (k, v) :: rest =>
      if k = key then (k, value) :: rest else (k, v) :: setAssoc key value rest

/-- `set(key, value)`: if `this.state[key] !== value`, commit the value,
increment `_version`, and then call each listener with the new version.
Returns the new store together with the list of notifications
`(listener, version passed)` issued, in listener-registration order;
the notifications are produced after the commit (they carry the
post-commit version). -/
def ReactiveStore.set (s : ReactiveStore) (key : String) (value : JSVal) :
    ReactiveStore × List (ℕ × ℕ) :=
  if strictEq (s.get key) value then (s, [])
  else
    let s2 : ReactiveStore :=
      { state := setAssoc key value s.state
        version := s.version + 1
        listeners := s.listeners }
    (s2, s2.listeners.map fun l => (l, s2.version))

theorem lookup_setAssoc_self {α : Type} (key : String) (value : α)
    (l : List (String × α)) : (setAssoc key value l).lookup key = some value := by
  induction l with
  | nil => simp [setAssoc]
  | cons hd tl ih =>
      obtain ⟨k, v⟩ := hd
      by_cases h : k = key
      · subst h; simp [setAssoc, List.lookup]
      · have hb : (key == k) = false := beq_eq_false_iff_ne.mpr (Ne.symm h)
        simp [setAssoc, h, List.lookup, hb, ih]

theorem lookup_setAssoc_other {α : Type} (key k' : String) (value : α)
    (l : List (String × α)) (h : k' ≠ key) :
    (setAssoc key value l).lookup k' = l.lookup k' := by
  have hb : (k' == key) = false := beq_eq_false_iff_ne.mpr h
  induction l with
  | nil => simp [setAssoc, List.lookup, hb]
  | cons hd tl ih =>
      obtain ⟨k, v⟩ := hd
      by_cases hk : k = key
      · subst hk
        simp [setAssoc, List.lookup, hb]
      · by_cases hk' : k = k'
        · subst hk'
          simp [setAssoc, hk, List.lookup]
        · have hb' : (k' == k) = false := beq_eq_false_iff_ne.mpr (Ne.symm hk')
          simp [setAssoc, hk, List.lookup, hb', ih]

/-- A concrete store holding NaN under key `"a"`, with one listener. -/
def nanStore : ReactiveStore :=
  { state := [("a", JSVal.num JSNum.nan)], version := 0, listeners := [0] }

/-- C1 counterexample: with NaN stored under `"a"`, the new value NaN is
identical to the stored value in the claim's sense (value-equality for
primitives), yet `set("a", NaN)` is not a no-op: the version counter is
bumped from 0 to 1 and the listener is notified. -/
theorem set_noop_rule_counterexample :
    specIdentical (nanStore.get "a") (JSVal.num JSNum.nan) = true ∧
    (nanStore.set "a" (JSVal.num JSNum.nan)).1.version = 1 ∧
    (nanStore.set "a" (JSVal.num JSNum.nan)).2 = [(0, 1)] := by
  refine ⟨by decide, by decide, by decide⟩

/-- C1 (amended): `set(k, v)` is a no-op (state, version and notifications
all untouched) exactly when `v` is *strictly* equal (`===`) to the stored
value — value-equality for primitives except that NaN is never equal to
anything, reference-equality for composites; otherwise it commits `v`
under `k` leaving all other keys unchanged, increments the version counter
by exactly one, keeps the listener list unchanged, and notifies every
registered listener exactly once, in registration order, with the
post-commit version. -/
theorem set_commit_amended (s : ReactiveStore) (key : String) (value : JSVal) :
    (strictEq (s.get key) value = true → s.set key value = (s, [])) ∧
    (strictEq (s.get key) value = false →
      (s.set key value).1.get key = value ∧
      (∀ k', k' ≠ key → (s.set key value).1.get k' = s.get k') ∧
      (s.set key value).1.version = s.version + 1 ∧
      (s.set key value).1.listeners = s.listeners ∧
      (s.set key value).2 = s.listeners.map fun l => (l, s.version + 1)) := by
  constructor
  · intro h
    simp [ReactiveStore.set, h]
  · intro h
    refine ⟨?_, ?_, ?_, ?_, ?_⟩
    · simp only [ReactiveStore.set, h, Bool.false_eq_true, if_false]
      simp [ReactiveStore.get, lookup_setAssoc_self]
    · intro k' hk'
      simp only [ReactiveStore.set, h, Bool.false_eq_true, if_false]
      simp [ReactiveStore.get, lookup_setAssoc_other _ _ _ _ hk']
    · simp [ReactiveStore.set, h]
    · simp [ReactiveStore.set, h]
    · simp [ReactiveStore.set, h]

/-- A concrete store for exercising a committing `set`. -/
def emptyStore : ReactiveStore :=
  { state := [], version := 5, listeners := [3, 7] }

/-- Witness for the amended C1 theorem at a concrete committing input. -/
theorem set_commit_amended_witness :
    strictEq (emptyStore.get "x") (JSVal.num (JSNum.fin 1)) = false ∧
    (emptyStore.set "x" (JSVal.num (JSNum.fin 1))).1.version = 6 ∧
    (emptyStore.set "x" (JSVal.num (JSNum.fin 1))).2 = [(3, 6), (7, 6)] := by
  have h := (set_commit_amended emptyStore "x" (JSVal.num (JSNum.fin 1))).2 (by decide)
  exact ⟨by decide, h.2.2.1.trans (by decide), h.2.2.2.2.trans (by decide)⟩

/-- C10: when the value stored under `key` is NaN, `set(key, NaN)` is never
a no-op: because the comparison is strict inequality and `NaN !== NaN`,
the call increments the version counter and notifies every listener with
the new version — even though the new value is identical (value-equal) to
the old one. -/
theorem set_nan_never_noop (s : ReactiveStore) (key : String)
    (h : s.get key = JSVal.num JSNum.nan) :
    specIdentical (s.get key) (JSVal.num JSNum.nan) = true ∧
    (s.set key (JSVal.num JSNum.nan)).1.version = s.version + 1 ∧
    (s.set key (JSVal.num JSNum.nan)).2 =
      s.listeners.map fun l => (l, s.version + 1) := by
  have hne : strictEq (s.get key) (JSVal.num JSNum.nan) = false := by
    rw [h]; decide
  refine ⟨by rw [h]; decide, ?_, ?_⟩ <;> simp [ReactiveStore.set, hne]

/-- A concrete store holding NaN under `"timestamp"`, with two listeners. -/
def nanTsStore : ReactiveStore :=
  { state := [("timestamp", JSVal.num JSNum.nan)], version := 2, listeners := [1, 4] }

/-- Witness for C10 at a concrete store. -/
theorem set_nan_never_noop_witness :
    nanTsStore.get "timestamp" = JSVal.num JSNum.nan ∧
    (nanTsStore.set "timestamp" (JSVal.num JSNum.nan)).1.version = 3 ∧
    (nanTsStore.set "timestamp" (JSVal.num JSNum.nan)).2 = [(1, 3), (4, 3)] := by
  have h := set_nan_never_noop nanTsStore "timestamp" (by decide)
  exact ⟨by decide, h.2.1.trans (by decide), h.2.2.trans (by decide)⟩

/-- Stream metadata entry (`metadata.streams[streamName]`): only the
`type` field is inspected by the loader. -/
structure StreamMeta : Type where
  type : String
  deriving DecidableEq, Repr

/-- Log metadata as consumed by the loader: `start_time`, `end_time`
and the declared streams (`metadata.streams`, in declaration order). -/
structure Metadata : Type where
  start_time : ℚ
  end_time : ℚ
  streams : List (String × StreamMeta)
  deriving DecidableEq, Repr

/-- An image payload held in a stream entry's `images` array: the
`timestamp` field written by `getImageFrames`, plus the rest of the
payload abstracted as an identifier. -/
structure ImagePayload : Type where
  timestamp : Option JSNum
  payload : ℕ
  deriving DecidableEq, Repr

/-- One element of a stream array: the `.time` field (read on the
`vehicle-pose` stream) and the `.images` field (read on image streams);
either field may be absent (`undefined`, modelled as `none`). -/
structure StreamElem : Type where
  time : Option JSNum
  images : Option (List ImagePayload)
  deriving DecidableEq, Repr

/-- The value held under the `streams` key: stream name → array of
entries, where an entry may be null. -/
abbrev Streams : Type := List (String × List (Option StreamElem))

/-- Modelled from the spec: the `LogSynchronizer` collaborator (§6) is
external to the sources; it is an opaque black box whose
`setTime(timestamp)` records the current time and whose
`getCurrentFrame(streamDeclarations)` produces a per-stream frame slice
from the recorded time and the declared streams. -/
structure LogSynchronizer (Frame : Type) : Type where
  currentTime : Option JSNum
  getFrameF : Option JSNum → List (String × StreamMeta) → Frame

/-- `logSynchronizer.setTime(timestamp)`. -/
def LogSynchronizer.setTime {F : Type} (syn : LogSynchronizer F) (t : JSNum) :
    LogSynchronizer F :=
  { syn with currentTime := some t }

/-- `logSynchronizer.getCurrentFrame(streams)`. -/
def LogSynchronizer.frameFor {F : Type} (syn : LogSynchronizer F)
    (streams : List (String × StreamMeta)) : F :=
  syn.getFrameF syn.currentTime streams

/-- The typed view of the loader's state mapping: the values stored under
the `metadata`, `timestamp`, `logSynchronizer` and `streams` keys
(each `null`/absent when `none`). -/
structure LoaderState (Frame : Type) : Type where
  metadata : Option Metadata
  timestamp : Option JSNum
  logSynchronizer : Option (LogSynchronizer Frame)
  streams : Option Streams

/-- JS strict equality on the `timestamp` slot (a number or `null`). -/
def strictEqTs : Option JSNum → Option JSNum → Bool
  | none, none => true
  | some a, some b => strictEq (.num a) (.num b)
  | _, _ => false

/-- `set('timestamp', v)` seen through the typed view: commit only when
the new value is not strictly equal to the stored one. -/
def LoaderState.setTimestamp {F : Type} (s : LoaderState F) (v : Option JSNum) :
    LoaderState F :=
  if strictEqTs s.timestamp v then s else { s with timestamp := v }

/-- `Math.min` of two JS numbers (NaN-propagating). -/
def jsMin : JSNum → JSNum → JSNum
  | .nan, _ => .nan
  | _, .nan => .nan
  | .negInf, _ => .negInf
  | _, .negInf => .negInf
  | .posInf, b => b
  | a, .posInf => a
  | .fin a, .fin b => .fin (if a ≤ b then a else b)

/-- `Math.max` of two JS numbers (NaN-propagating). -/
def jsMax : JSNum → JSNum → JSNum
  | .nan, _ => .nan
  | _, .nan => .nan
  | .posInf, _ => .posInf
  | _, .posInf => .posInf
  | .negInf, b => b
  | a, .negInf => a
  | .fin a, .fin b => .fin (if a ≤ b then b else a)

/-- `clamp(value, min, max)` from the math.gl dependency:
`Math.max(min, Math.min(max, value))`. -/
def clampJS (value lo hi : JSNum) : JSNum :=
  jsMax lo (jsMin hi value)

/-- `seek(timestamp)`: clamp into `[getLogStartTime(), getLogEndTime()]`
when metadata is present (`getLogStartTime` is
`metadata.start_time + TIME_WINDOW`, `getLogEndTime` is
`metadata.end_time`), then `set('timestamp', ...)`.  `tw` is the
`TIME_WINDOW` value of the external `getXvizSettings()` configuration. -/
def LoaderState.seek {F : Type} (tw : ℚ) (s : LoaderState F) (timestamp : JSNum) :
    LoaderState F :=
  match s.metadata with
  | some metadata =>
      let startTime := metadata.start_time + tw
      let endTime := metadata.end_time
      s.setTimestamp (some (clampJS timestamp (.fin startTime) (.fin endTime)))
  | none => s.setTimestamp (some timestamp)

theorem strictEq_num_eq (a b : JSNum) (h : strictEq (.num a) (.num b) = true) :
    a = b := by
  cases a <;> cases b <;> simp_all [strictEq]

theorem setTimestamp_timestamp {F : Type} (s : LoaderState F) (v : Option JSNum) :
    (s.setTimestamp v).timestamp = v := by
  unfold LoaderState.setTimestamp
  split
  case isTrue h =>
    cases hs : s.timestamp <;> cases hv : v <;> simp_all [strictEqTs]
    exact strictEq_num_eq _ _ h
  case isFalse h => rfl

theorem setTimestamp_other {F : Type} (s : LoaderState F) (v : Option JSNum) :
    (s.setTimestamp v).metadata = s.metadata ∧
    (s.setTimestamp v).logSynchronizer = s.logSynchronizer ∧
    (s.setTimestamp v).streams = s.streams := by
  unfold LoaderState.setTimestamp
  split <;> exact ⟨rfl, rfl, rfl⟩

/-- The metadata of the spec's `seek` clamp scenario:
`start_time = 100`, `end_time = 200`. -/
def md100 : Metadata := { start_time := 100, end_time := 200, streams := [] }

/-- A loader state holding `md100` and nothing else. -/
def seekDemoState : LoaderState Unit :=
  { metadata := some md100, timestamp := none, logSynchronizer := none, streams := none }

/-- A loader state with no metadata stored. -/
def noMdState : LoaderState Unit :=
  { metadata := none, timestamp := none, logSynchronizer := none, streams := none }

/-- C2: without metadata, `seek(t)` stores the raw `t` under the
`timestamp` key; with metadata, it stores
`clamp(t, metadata.start_time + TIME_WINDOW, metadata.end_time)`.
In particular with `start_time = 100`, `TIME_WINDOW = 5`,
`end_time = 200`: `seek(50)` yields 105, `seek(500)` yields 200 and
`seek(150)` yields 150. -/
theorem seek_stores_clamped {F : Type} (tw : ℚ) (s : LoaderState F) (t : JSNum) :
    (s.metadata = none → (LoaderState.seek tw s t).timestamp = some t) ∧
    (∀ m, s.metadata = some m →
      (LoaderState.seek tw s t).timestamp =
        some (clampJS t (.fin (m.start_time + tw)) (.fin m.end_time))) ∧
    (LoaderState.seek 5 seekDemoState (.fin 50)).timestamp = some (.fin 105) ∧
    (LoaderState.seek 5 seekDemoState (.fin 500)).timestamp = some (.fin 200) ∧
    (LoaderState.seek 5 seekDemoState (.fin 150)).timestamp = some (.fin 150) := by
  have hseek : ∀ v : JSNum, (LoaderState.seek 5 seekDemoState v).timestamp =
      some (clampJS v (.fin 105) (.fin 200)) := by
    intro v
    unfold LoaderState.seek
    show (LoaderState.setTimestamp _ _).timestamp = _
    rw [setTimestamp_timestamp]
    norm_num [md100]
  refine ⟨?_, ?_, ?_, ?_, ?_⟩
  case refine_3 => rw [hseek]; norm_num [clampJS, jsMin, jsMax]
  case refine_4 => rw [hseek]; norm_num [clampJS, jsMin, jsMax]
  case refine_5 => rw [hseek]; norm_num [clampJS, jsMin, jsMax]
  · intro h
    unfold LoaderState.seek
    rw [h]
    exact setTimestamp_timestamp _ _
  · intro m hm
    unfold LoaderState.seek
    rw [hm]
    exact setTimestamp_timestamp _ _

/-- Witness for C2 at concrete inputs, both without and with metadata. -/
theorem seek_stores_clamped_witness :
    noMdState.metadata = none ∧
    (LoaderState.seek 5 noMdState (.fin 42)).timestamp = some (.fin 42) ∧
    seekDemoState.metadata = some md100 ∧
    (LoaderState.seek 5 seekDemoState (.fin 50)).timestamp = some (.fin 105) := by
  refine ⟨rfl, (seek_stores_clamped 5 noMdState (.fin 42)).1 rfl, rfl, ?_⟩
  refine ((seek_stores_clamped 5 seekDemoState (.fin 50)).2.1 md100 rfl).trans ?_
  norm_num [md100, clampJS, jsMin, jsMax]

/-- `getCurrentFrame()`: when the synchronizer, the metadata and a finite
timestamp are all present, call `logSynchronizer.setTime(timestamp)` and
return `logSynchronizer.getCurrentFrame(metadata.streams)`; otherwise
return `null`.  The first component is the selector's result; the second
is the loader state afterwards (`setTime` mutates the stored
synchronizer). -/
def LoaderState.getCurrentFrame {F : Type} (s : LoaderState F) :
    Option F × LoaderState F :=
  match s.logSynchronizer, s.metadata, s.timestamp with
  | some logSynchronizer, some metadata, some (.fin t) =>
      let syn2 := logSynchronizer.setTime (.fin t)
      (some (syn2.frameFor metadata.streams), { s with logSynchronizer := some syn2 })
  | _, _, _ => (none, s)

/-- C3: `getCurrentFrame()` returns `nil` unless the synchronizer, the
metadata and the timestamp are all present with the timestamp a finite
number; when they are, it delegates to the synchronizer — `setTime` with
the current timestamp, then `getCurrentFrame` with the metadata's
declared stream set — and returns whatever frame slice the synchronizer
produces. -/
theorem getCurrentFrame_delegates {F : Type} (s : LoaderState F) :
    ((s.logSynchronizer = none ∨ s.metadata = none ∨
        ∀ q, s.timestamp ≠ some (.fin q)) →
      (LoaderState.getCurrentFrame s).1 = none) ∧
    (∀ syn m q, s.logSynchronizer = some syn → s.metadata = some m →
      s.timestamp = some (.fin q) →
      (LoaderState.getCurrentFrame s).1 =
        some (syn.getFrameF (some (.fin q)) m.streams) ∧
      (LoaderState.getCurrentFrame s).2 =
        { s with logSynchronizer := some (syn.setTime (.fin q)) }) := by
  obtain ⟨md, ts, ls, strs⟩ := s
  constructor
  · intro h
    rcases h with h | h | h
    · simp only at h
      subst h
      rfl
    · simp only at h
      subst h
      cases ls <;> rfl
    · simp only at h
      cases ls with
      | none => rfl
      | some syn =>
          cases md with
          | none => rfl
          | some m =>
              cases ts with
              | none => rfl
              | some t =>
                  cases t with
                  | fin q => exact absurd rfl (h q)
                  | nan => rfl
                  | posInf => rfl
                  | negInf => rfl
  · intro syn m q hls hmd hts
    simp only at hls hmd hts
    subst hls; subst hmd; subst hts
    exact ⟨rfl, rfl⟩

/-- A concrete synchronizer returning the number of declared streams. -/
def demoSyn : LogSynchronizer ℕ :=
  { currentTime := none, getFrameF := fun _ sts => sts.length }

/-- A loader state with synchronizer, metadata and a finite timestamp. -/
def demoFrameState : LoaderState ℕ :=
  { metadata := some md100, timestamp := some (.fin 150),
    logSynchronizer := some demoSyn, streams := none }

/-- Witness for C3: delegation at a concrete state, and `nil` when the
synchronizer is absent. -/
theorem getCurrentFrame_delegates_witness :
    demoFrameState.logSynchronizer = some demoSyn ∧
    (LoaderState.getCurrentFrame demoFrameState).1 = some 0 ∧
    noMdState.metadata = none ∧
    (LoaderState.getCurrentFrame noMdState).1 = none := by
  refine ⟨rfl, ?_, rfl, ?_⟩
  · exact (((getCurrentFrame_delegates demoFrameState).2 demoSyn md100 150
      rfl rfl rfl).1).trans rfl
  · exact (getCurrentFrame_delegates noMdState).1 (Or.inr (Or.inl rfl))

/-- A JavaScript runtime error raised while a selector recomputes
(a `TypeError` from reading a property of `undefined`/`null` or indexing
into `null`). -/
inductive JSErr : Type
  | typeError
  deriving DecidableEq, Repr

/-- `timestamp / 1000` on a possibly-undefined JS number
(`undefined / 1000` is NaN). -/
def divBy1000 : Option JSNum → JSNum
  | none => .nan
  | some (.fin q) => .fin (q / 1000)
  | some .nan => .nan
  | some .posInf => .posInf
  | some .negInf => .negInf

/-- The body `pose => pose.time` of the `getTimestamps` map: reading
`.time` on a null entry is a TypeError. -/
def poseTime : Option StreamElem → Except JSErr (Option JSNum)
  | none => .error .typeError
  | some e => .ok e.time

/-- `getTimestamps`: `streams && streams['vehicle-pose']` mapped with
`pose => pose.time`, or `null` when `streams` or the `vehicle-pose`
stream is absent.  Reading `.time` on a null entry is a TypeError. -/
def getTimestamps {F : Type} (s : LoaderState F) :
    Except JSErr (Option (List (Option JSNum))) :=
  match s.streams with
  | none => .ok none
  | some strs =>
    match strs.lookup "vehicle-pose" with
    | none => .ok none
    | some vehiclePoses => (vehiclePoses.mapM poseTime).map some

/-- `getImageStreamNames`: the keys of `metadata.streams` whose declared
`type` is `'image'`, or `null` when metadata is absent. -/
def getImageStreamNames {F : Type} (s : LoaderState F) : Option (List String) :=
  s.metadata.map fun metadata =>
    (metadata.streams.filter fun p => p.2.type == "image").map Prod.fst

/-- One step of the `getImageFrames` map over an image stream:
`if (frame && frame.images[0]) { Object.assign(frame.images[0],
{timestamp: timestamp / 1000}); } return frame && frame.images[0];`.
Returns the per-index result together with the (possibly mutated) stream
entry; `frame.images[0]` on an absent `images` field is a TypeError. -/
def processImageEntry (tsv : Option JSNum) :
    Option StreamElem → Except JSErr (Option ImagePayload × Option StreamElem)
  | none => .ok (none, none)
  | some frame =>
    match frame.images with
    | none => .error .typeError
    | some [] => .ok (none, some frame)
    | some (img :: rest) =>
        let img2 := { img with timestamp := some (divBy1000 tsv) }
        .ok (some img2, some { frame with images := some (img2 :: rest) })

/-- `streams[streamName].map((frame, i) => ...)` starting at index `i`:
`const timestamp = timestamps[i]` is a TypeError when the timestamps
value is `null`. -/
def processImageStream (tsr : Option (List (Option JSNum))) :
    List (Option StreamElem) → ℕ →
    Except JSErr (List (Option ImagePayload) × List (Option StreamElem))
  | [], _ => .ok ([], [])
  | frame :: rest, i =>
    match tsr with
    | none => .error .typeError
    | some ts => do
        let r ← processImageEntry ((ts.get? i).join) frame
        let rs ← processImageStream tsr rest (i + 1)
        .ok (r.1 :: rs.1, r.2 :: rs.2)

/-- The `imageStreamNames.forEach(...)` loop of `getImageFrames`: builds
the per-stream result list and threads the mutated `streams` value;
`streams[streamName].map` on an absent stream is a TypeError. -/
def processStreams (tsr : Option (List (Option JSNum))) :
    List String → Streams →
    Except JSErr (List (String × List (Option ImagePayload)) × Streams)
  | [], strs => .ok ([], strs)
  | name :: rest, strs =>
    match strs.lookup name with
    | none => .error .typeError
    | some arr => do
        let r ← processImageStream tsr arr 0
        let rs ← processStreams tsr rest (setAssoc name r.2 strs)
        .ok ((name, r.1) :: rs.1, rs.2)

/-- `getImageFrames`: selector over
`[getImageStreamNames, getStreams, getTimestamps]`.  The dependency
selectors are evaluated first (so an error raised by `getTimestamps`
propagates); when the `streams` value and the image stream names are
both non-null every declared image stream is mapped as above — mutating
the first image of each entry in place — and otherwise the result is
`null`.  Returns the result together with the loader state after the
read. -/
def LoaderState.getImageFrames {F : Type} (s : LoaderState F) :
    Except JSErr
      (Option (List (String × List (Option ImagePayload))) × LoaderState F) := do
  let tsr ← getTimestamps s
  match s.streams, getImageStreamNames s with
  | some strs, some imageStreamNames => do
      let r ← processStreams tsr imageStreamNames strs
      .ok (some r.1, { s with streams := some r.2 })
  | _, _ => .ok (none, s)

/-- The per-index result `getImageFrames` produces for one stream entry:
nil for a null entry or an empty `images` array, otherwise the first
image carrying the scaled timestamp. -/
def entryOut (tsv : Option JSNum) : Option StreamElem → Option ImagePayload
  | none => none
  | some el =>
    match el.images with
    | none => none
    | some [] => none
    | some (img :: _) => some { img with timestamp := some (divBy1000 tsv) }

/-- A stream entry after `getImageFrames` processed it: only the first
image's `timestamp` field changes. -/
def entryMut (tsv : Option JSNum) : Option StreamElem → Option StreamElem
  | none => none
  | some el =>
    match el.images with
    | none => some el
    | some [] => some el
    | some (img :: t) =>
        some { el with images := some ({ img with timestamp := some (divBy1000 tsv) } :: t) }

/-- The whole per-index result array for one image stream, starting at
index `i`. -/
def mapEntryOut (ts : List (Option JSNum)) :
    List (Option StreamElem) → ℕ → List (Option ImagePayload)
  | [], _ => []
  | e :: rest, i => entryOut ((ts.get? i).join) e :: mapEntryOut ts rest (i + 1)

/-- The whole mutated stream array, starting at index `i`. -/
def mapEntryMut (ts : List (Option JSNum)) :
    List (Option StreamElem) → ℕ → List (Option StreamElem)
  | [], _ => []
  | e :: rest, i => entryMut ((ts.get? i).join) e :: mapEntryMut ts rest (i + 1)

/-- Every non-null entry of the array has its `images` field present
(the precondition for `frame.images[0]` not to throw). -/
def imagesPresent (arr : List (Option StreamElem)) : Prop :=
  ∀ el, some el ∈ arr → el.images ≠ none

/-- An `images` field is preserved up to the first image's `timestamp`:
the tail and the first image's payload are unchanged. -/
def imagesPreserved : Option (List ImagePayload) → Option (List ImagePayload) → Prop
  | none, none => True
  | some [], some l2 => l2 = []
  | some (img :: t), some l2 => ∃ img2, l2 = img2 :: t ∧ img2.payload = img.payload
  | _, _ => False

/-- A stream entry is preserved up to the first image's `timestamp`. -/
def entryPreserved : Option StreamElem → Option StreamElem → Prop
  | none, none => True
  | some e, some e2 => e2.time = e.time ∧ imagesPreserved e.images e2.images
  | _, _ => False

/-- The whole `streams` value is preserved up to first-image timestamps:
same stream names in the same order, entry arrays pointwise preserved. -/
def streamsPreserved (strs strs2 : Streams) : Prop :=
  List.Forall₂ (fun p q => p.1 = q.1 ∧ List.Forall₂ entryPreserved p.2 q.2) strs strs2

theorem imagesPreserved_refl (x : Option (List ImagePayload)) : imagesPreserved x x := by
  match x with
  | none => trivial
  | some [] => rfl
  | some (img :: t) => exact ⟨img, rfl, rfl⟩

theorem entryPreserved_refl (e : Option StreamElem) : entryPreserved e e := by
  match e with
  | none => trivial
  | some el => exact ⟨rfl, imagesPreserved_refl _⟩

theorem streamsPreserved_refl (strs : Streams) : streamsPreserved strs strs := by
  refine List.forall₂_same.mpr fun p _ => ⟨rfl, ?_⟩
  exact List.forall₂_same.mpr fun e _ => entryPreserved_refl e

theorem imagesPreserved_trans {x y z : Option (List ImagePayload)}
    (h1 : imagesPreserved x y) (h2 : imagesPreserved y z) : imagesPreserved x z := by
  match x, y with
  | none, none => exact h2
  | none, some l2 => exact h1.elim
  | some [], none => exact h1.elim
  | some (_ :: _), none => exact h1.elim
  | some [], some l2 =>
      have h1' : l2 = [] := h1
      subst h1'
      exact h2
  | some (img :: t), some l2 =>
      have h1' : ∃ img2, l2 = img2 :: t ∧ img2.payload = img.payload := h1
      obtain ⟨img2, rfl, hp⟩ := h1'
      match z with
      | none => exact h2.elim
      | some l3 =>
          have h2' : ∃ img3, l3 = img3 :: t ∧ img3.payload = img2.payload := h2
          obtain ⟨img3, rfl, hp3⟩ := h2'
          exact ⟨img3, rfl, hp3.trans hp⟩

theorem entryPreserved_trans {x y z : Option StreamElem}
    (h1 : entryPreserved x y) (h2 : entryPreserved y z) : entryPreserved x z := by
  match x, y with
  | none, none => exact h2
  | none, some _ => exact h1.elim
  | some _, none => exact h1.elim
  | some e, some e2 =>
      match z with
      | none => exact h2.elim
      | some e3 => exact ⟨h2.1.trans h1.1, imagesPreserved_trans h1.2 h2.2⟩

theorem forall2_trans {α : Type} {R : α → α → Prop}
    (hR : ∀ a b c, R a b → R b c → R a c) :
    ∀ {l1 l2 l3 : List α}, List.Forall₂ R l1 l2 → List.Forall₂ R l2 l3 →
      List.Forall₂ R l1 l3 := by
  intro l1 l2 l3 h1 h2
  induction h1 generalizing l3 with
  | nil =>
      cases h2
      exact List.Forall₂.nil
  | cons hab h ih =>
      cases h2 with
      | cons hbc h2' => exact List.Forall₂.cons (hR _ _ _ hab hbc) (ih h2')

theorem streamsPreserved_trans {a b c : Streams}
    (h1 : streamsPreserved a b) (h2 : streamsPreserved b c) : streamsPreserved a c :=
  forall2_trans
    (fun _ _ _ hpq hqr =>
      ⟨hpq.1.trans hqr.1,
        forall2_trans (R := entryPreserved) (fun _ _ _ x y => entryPreserved_trans x y)
          hpq.2 hqr.2⟩)
    h1 h2

theorem entryPreserved_entryMut (tsv : Option JSNum) (e : Option StreamElem) :
    entryPreserved e (entryMut tsv e) := by
  match e with
  | none => trivial
  | some el =>
      obtain ⟨tm, imgs⟩ := el
      match imgs with
      | none => exact ⟨rfl, imagesPreserved_refl _⟩
      | some [] => exact ⟨rfl, imagesPreserved_refl _⟩
      | some (img :: t) => exact ⟨rfl, ⟨_, rfl, rfl⟩⟩

theorem forall2_entryPreserved_mapEntryMut (ts : List (Option JSNum)) :
    ∀ (arr : List (Option StreamElem)) (i : ℕ),
      List.Forall₂ entryPreserved arr (mapEntryMut ts arr i)
  | [], _ => List.Forall₂.nil
  | e :: rest, i =>
      List.Forall₂.cons (entryPreserved_entryMut _ e)
        (forall2_entryPreserved_mapEntryMut ts rest (i + 1))

theorem processImageStream_cons (ts : List (Option JSNum)) (e : Option StreamElem)
    (rest : List (Option StreamElem)) (i : ℕ) :
    processImageStream (some ts) (e :: rest) i =
      (processImageEntry ((ts.get? i).join) e).bind fun r =>
        (processImageStream (some ts) rest (i + 1)).bind fun rs =>
          Except.ok (r.1 :: rs.1, r.2 :: rs.2) := rfl

theorem processImageStream_eq_ok (ts : List (Option JSNum)) :
    ∀ (arr : List (Option StreamElem)) (i : ℕ), imagesPresent arr →
      processImageStream (some ts) arr i =
        .ok (mapEntryOut ts arr i, mapEntryMut ts arr i) := by
  intro arr
  induction arr with
  | nil => intro i _; rfl
  | cons e rest ih =>
      intro i h
      have hrest : imagesPresent rest := fun el hm => h el (List.mem_cons_of_mem _ hm)
      rw [processImageStream_cons, ih (i + 1) hrest]
      match e with
      | none => rfl
      | some ⟨tm, none⟩ =>
          exact absurd rfl (h ⟨tm, none⟩ (List.mem_cons_self _ _))
      | some ⟨tm, some []⟩ => rfl
      | some ⟨tm, some (img :: t)⟩ => rfl

theorem processImageEntry_ok_preserved (tsv : Option JSNum) (e : Option StreamElem)
    (r : Option ImagePayload × Option StreamElem)
    (h : processImageEntry tsv e = .ok r) : entryPreserved e r.2 := by
  match e with
  | none =>
      simp [processImageEntry] at h
      rw [← h]
      trivial
  | some ⟨tm, none⟩ => simp [processImageEntry] at h
  | some ⟨tm, some []⟩ =>
      simp [processImageEntry] at h
      rw [← h]
      exact entryPreserved_refl _
  | some ⟨tm, some (img :: t)⟩ =>
      simp [processImageEntry] at h
      rw [← h]
      exact ⟨rfl, ⟨_, rfl, rfl⟩⟩

theorem processImageStream_ok_preserved (tsr : Option (List (Option JSNum))) :
    ∀ (arr : List (Option StreamElem)) (i : ℕ) (out : List (Option ImagePayload))
      (arr2 : List (Option StreamElem)),
      processImageStream tsr arr i = .ok (out, arr2) →
      List.Forall₂ entryPreserved arr arr2 := by
  intro arr
  induction arr with
  | nil =>
      intro i out arr2 h
      simp [processImageStream] at h
      obtain ⟨h1, h2⟩ := h
      subst h2
      exact List.Forall₂.nil
  | cons e rest ih =>
      intro i out arr2 h
      match tsr with
      | none => simp [processImageStream] at h
      | some ts =>
          rw [processImageStream_cons] at h
          cases he : processImageEntry ((ts.get? i).join) e with
          | error err => rw [he] at h; simp [Except.bind] at h
          | ok r =>
              rw [he] at h
              cases hrec : processImageStream (some ts) rest (i + 1) with
              | error err => rw [hrec] at h; simp [Except.bind] at h
              | ok rs =>
                  rw [hrec] at h
                  simp [Except.bind] at h
                  rw [← h.2]
                  exact List.Forall₂.cons (processImageEntry_ok_preserved _ _ _ he)
                    (ih _ _ _ hrec)

theorem streamsPreserved_setAssoc (name : String)
    (arr arr2 : List (Option StreamElem)) :
    ∀ strs : Streams, strs.lookup name = some arr →
      List.Forall₂ entryPreserved arr arr2 →
      streamsPreserved strs (setAssoc name arr2 strs) := by
  intro strs
  induction strs with
  | nil => intro h _; simp [List.lookup] at h
  | cons p rest ih =>
      obtain ⟨k, v⟩ := p
      intro hl hf
      by_cases hk : k = name
      · subst hk
        have hv : v = arr := by simpa [List.lookup] using hl
        subst hv
        simp only [setAssoc, if_pos]
        exact List.Forall₂.cons ⟨rfl, hf⟩ (streamsPreserved_refl rest)
      · have hb : (name == k) = false := beq_eq_false_iff_ne.mpr (Ne.symm hk)
        have hl' : rest.lookup name = some arr := by simpa [List.lookup, hb] using hl
        simp only [setAssoc, hk, if_false]
        exact List.Forall₂.cons
          ⟨rfl, List.forall₂_same.mpr fun e _ => entryPreserved_refl e⟩ (ih hl' hf)

theorem processStreams_cons (tsr : Option (List (Option JSNum))) (name : String)
    (rest : List String) (strs : Streams) :
    processStreams tsr (name :: rest) strs =
      (match strs.lookup name with
      | none => Except.error .typeError
      | some arr =>
          (processImageStream tsr arr 0).bind fun r =>
            (processStreams tsr rest (setAssoc name r.2 strs)).bind fun rs =>
              Except.ok ((name, r.1) :: rs.1, rs.2)) := rfl

theorem processStreams_cons_none (tsr : Option (List (Option JSNum))) (name : String)
    (rest : List String) (strs : Streams) (hl : strs.lookup name = none) :
    processStreams tsr (name :: rest) strs = Except.error .typeError := by
  rw [processStreams_cons, hl]

theorem processStreams_cons_some (tsr : Option (List (Option JSNum))) (name : String)
    (rest : List String) (strs : Streams) (arr : List (Option StreamElem))
    (hl : strs.lookup name = some arr) :
    processStreams tsr (name :: rest) strs =
      (processImageStream tsr arr 0).bind fun r =>
        (processStreams tsr rest (setAssoc name r.2 strs)).bind fun rs =>
          Except.ok ((name, r.1) :: rs.1, rs.2) := by
  rw [processStreams_cons, hl]

theorem processStreams_ok_preserved (tsr : Option (List (Option JSNum))) :
    ∀ (names : List String) (strs : Streams)
      (out : List (String × List (Option ImagePayload))) (strs2 : Streams),
      processStreams tsr names strs = .ok (out, strs2) →
      streamsPreserved strs strs2 := by
  intro names
  induction names with
  | nil =>
      intro strs out strs2 h
      simp [processStreams] at h
      obtain ⟨h1, h2⟩ := h
      subst h2
      exact streamsPreserved_refl strs
  | cons name rest ih =>
      intro strs out strs2 h
      cases hl : strs.lookup name with
      | none => rw [processStreams_cons_none tsr name rest strs hl] at h; simp at h
      | some arr =>
          rw [processStreams_cons_some tsr name rest strs arr hl] at h
          cases hps : processImageStream tsr arr 0 with
          | error err => rw [hps] at h; simp [Except.bind] at h
          | ok r =>
              rw [hps] at h
              simp only [Except.bind] at h
              cases hrec : processStreams tsr rest (setAssoc name r.2 strs) with
              | error err => rw [hrec] at h; simp [Except.bind] at h
              | ok rs =>
                  rw [hrec] at h
                  simp [Except.bind] at h
                  have hpre1 : streamsPreserved strs (setAssoc name r.2 strs) :=
                    streamsPreserved_setAssoc name arr r.2 strs hl
                      (processImageStream_ok_preserved tsr arr 0 r.1 r.2 (by rw [hps]))
                  have hpre2 := ih (setAssoc name r.2 strs) rs.1 rs.2 (by rw [hrec])
                  rw [← h.2]
                  exact streamsPreserved_trans hpre1 hpre2

/-- Every name of the list is a stream present in `strs` whose non-null
entries all carry an `images` field — the precondition under which the
`getImageFrames` loop cannot throw. -/
def NamesOk (names : List String) (strs : Streams) : Prop :=
  ∀ name ∈ names, ∃ arr, strs.lookup name = some arr ∧ imagesPresent arr

theorem mapEntryOut_length (ts : List (Option JSNum)) :
    ∀ (arr : List (Option StreamElem)) (i : ℕ),
      (mapEntryOut ts arr i).length = arr.length
  | [], _ => rfl
  | _ :: rest, i => congrArg Nat.succ (mapEntryOut_length ts rest (i + 1))

theorem mapEntryOut_get? (ts : List (Option JSNum)) :
    ∀ (arr : List (Option StreamElem)) (i0 i : ℕ) (hi : i < arr.length),
      (mapEntryOut ts arr i0).get? i =
        some (entryOut ((ts.get? (i0 + i)).join) (arr.get ⟨i, hi⟩)) := by
  intro arr
  induction arr with
  | nil => intro i0 i hi; exact absurd hi (Nat.not_lt_zero i)
  | cons e rest ih =>
      intro i0 i hi
      match i with
      | 0 => simp [mapEntryOut]
      | Nat.succ i' =>
          have hi' : i' < rest.length := Nat.succ_lt_succ_iff.mp (by simpa using hi)
          have harith : i0 + 1 + i' = i0 + (i' + 1) := by omega
          have hih := ih (i0 + 1) i' hi'
          rw [harith] at hih
          exact hih

theorem processStreams_eq_ok (ts : List (Option JSNum)) :
    ∀ (names : List String) (strs : Streams), names.Nodup → NamesOk names strs →
      ∃ out strs2,
        processStreams (some ts) names strs = .ok (out, strs2) ∧
        out.length = names.length ∧
        ∀ j (hj : j < names.length), ∃ arr,
          strs.lookup (names.get ⟨j, hj⟩) = some arr ∧
          out.get? j = some (names.get ⟨j, hj⟩, mapEntryOut ts arr 0) := by
  intro names
  induction names with
  | nil =>
      intro strs _ _
      exact ⟨[], strs, rfl, rfl, fun j hj => absurd hj (Nat.not_lt_zero j)⟩
  | cons name rest ih =>
      intro strs hnd hok
      obtain ⟨arr, hl, hip⟩ := hok name (List.mem_cons_self name rest)
      have hnd' : rest.Nodup := (List.nodup_cons.mp hnd).2
      have hnmem : name ∉ rest := (List.nodup_cons.mp hnd).1
      have hok' : NamesOk rest (setAssoc name (mapEntryMut ts arr 0) strs) := by
        intro n hn
        obtain ⟨a, hla, hipa⟩ := hok n (List.mem_cons_of_mem name hn)
        have hne : n ≠ name := fun hh => hnmem (hh ▸ hn)
        exact ⟨a,
          (lookup_setAssoc_other name n (mapEntryMut ts arr 0) strs hne).trans hla,
          hipa⟩
      obtain ⟨out2, strs2, heq, hlen, hjs⟩ :=
        ih (setAssoc name (mapEntryMut ts arr 0) strs) hnd' hok'
      refine ⟨(name, mapEntryOut ts arr 0) :: out2, strs2, ?_, by simp [hlen], ?_⟩
      · rw [processStreams_cons_some (some ts) name rest strs arr hl,
          processImageStream_eq_ok ts arr 0 hip]
        simp only [Except.bind]
        rw [heq]
      · intro j hj
        match j with
        | 0 => exact ⟨arr, hl, rfl⟩
        | Nat.succ j' =>
            have hj' : j' < rest.length := Nat.succ_lt_succ_iff.mp (by simpa using hj)
            obtain ⟨a, hla, hout⟩ := hjs j' hj'
            have hmem : rest.get ⟨j', hj'⟩ ∈ rest := rest.get_mem j' hj'
            have hne : rest.get ⟨j', hj'⟩ ≠ name := fun hh => hnmem (hh ▸ hmem)
            exact ⟨a,
              (lookup_setAssoc_other name _ (mapEntryMut ts arr 0) strs hne).symm.trans
                hla,
              hout⟩

theorem getImageFrames_def {F : Type} (s : LoaderState F) :
    LoaderState.getImageFrames s =
      (getTimestamps s).bind fun tsr =>
        match s.streams, getImageStreamNames s with
        | some strs, some imageStreamNames =>
            (processStreams tsr imageStreamNames strs).bind fun r =>
              Except.ok (some r.1, { s with streams := some r.2 })
        | _, _ => .ok (none, s) := rfl

theorem getImageFrames_some {F : Type} (s : LoaderState F) (strs : Streams)
    (names : List String) (tsr : Option (List (Option JSNum)))
    (hstrs : s.streams = some strs) (hnames : getImageStreamNames s = some names)
    (hts : getTimestamps s = .ok tsr) :
    LoaderState.getImageFrames s =
      (processStreams tsr names strs).bind fun r =>
        Except.ok (some r.1, { s with streams := some r.2 }) := by
  rw [getImageFrames_def, hts]
  simp only [Except.bind]
  rw [hstrs, hnames]

/-- Metadata declaring the image stream `/camera`. -/
def mdCam : Metadata :=
  { start_time := 0, end_time := 1, streams := [("/camera", { type := "image" })] }

/-- A loader state whose metadata declares `/camera` as an image stream
but whose streams value does not contain it. -/
def missingStreamState : LoaderState Unit :=
  { metadata := some mdCam, timestamp := none, logSynchronizer := none,
    streams := some [("vehicle-pose", [])] }

/-- C4 counterexample: metadata and streams are present and `/camera` is
a declared image-type stream, but it is absent from the streams value;
`getImageFrames` then throws (`streams['/camera'].map` on `undefined`)
instead of yielding nil at each index — the whole computation fails. -/
theorem getImageFrames_counterexample :
    missingStreamState.streams = some [("vehicle-pose", [])] ∧
    getImageStreamNames missingStreamState = some ["/camera"] ∧
    LoaderState.getImageFrames missingStreamState = .error .typeError :=
  ⟨rfl, rfl, rfl⟩

/-- C4 (amended): provided every declared image-type stream is present in
the streams value (with the `images` field present on its non-null
entries) and the timestamps value is available, `getImageFrames` does not
fail: it returns one aligned array per declared image stream, of the same
length as the stream, in which a null entry or an entry with an empty
`images` array yields nil at that index while an entry with a first image
yields that image carrying `timestamps[i] / 1000`.  A declared image
stream that is absent from the streams value instead aborts the whole
computation with a TypeError. -/
theorem getImageFrames_amended {F : Type} (s : LoaderState F) (strs : Streams)
    (names : List String) (ts : List (Option JSNum))
    (hstrs : s.streams = some strs)
    (hnames : getImageStreamNames s = some names)
    (hts : getTimestamps s = .ok (some ts))
    (hnd : names.Nodup) (hok : NamesOk names strs) :
    ∃ out strs2,
      LoaderState.getImageFrames s =
        .ok (some out, { s with streams := some strs2 }) ∧
      out.length = names.length ∧
      ∀ j (hj : j < names.length), ∃ arr,
        strs.lookup (names.get ⟨j, hj⟩) = some arr ∧
        out.get? j = some (names.get ⟨j, hj⟩, mapEntryOut ts arr 0) ∧
        (mapEntryOut ts arr 0).length = arr.length ∧
        ∀ i (hi : i < arr.length),
          (arr.get ⟨i, hi⟩ = none → (mapEntryOut ts arr 0).get? i = some none) ∧
          (∀ el, arr.get ⟨i, hi⟩ = some el → el.images = some [] →
            (mapEntryOut ts arr 0).get? i = some none) ∧
          (∀ el img t, arr.get ⟨i, hi⟩ = some el → el.images = some (img :: t) →
            (mapEntryOut ts arr 0).get? i =
              some (some { img with
                timestamp := some (divBy1000 ((ts.get? i).join)) })) := by
  obtain ⟨out, strs2, heq, hlen, hjs⟩ := processStreams_eq_ok ts names strs hnd hok
  refine ⟨out, strs2, ?_, hlen, ?_⟩
  · rw [getImageFrames_some s strs names (some ts) hstrs hnames hts, heq]
    rfl
  · intro j hj
    obtain ⟨arr, hla, hout⟩ := hjs j hj
    refine ⟨arr, hla, hout, mapEntryOut_length ts arr 0, fun i hi => ⟨?_, ?_, ?_⟩⟩
    · intro h
      rw [mapEntryOut_get? ts arr 0 i hi, h]
      simp [entryOut]
    · intro el h1 h2
      rw [mapEntryOut_get? ts arr 0 i hi, h1]
      simp [entryOut, h2]
    · intro el img t h1 h2
      rw [mapEntryOut_get? ts arr 0 i hi, h1]
      simp [entryOut, h2]

/-- A concrete image payload with no timestamp yet. -/
def wImg : ImagePayload := { timestamp := none, payload := 3 }

/-- An entry holding one image. -/
def wElem : StreamElem := { time := none, images := some [wImg] }

/-- An entry with an empty `images` array. -/
def wEmptyElem : StreamElem := { time := none, images := some [] }

/-- A vehicle pose entry at time `q`. -/
def wPose (q : ℚ) : StreamElem := { time := some (.fin q), images := none }

/-- Streams: three vehicle poses and a `/camera` stream whose entries are
null, empty, and populated. -/
def wStrs : Streams :=
  [("vehicle-pose", [some (wPose 1000), some (wPose 2000), some (wPose 3000)]),
   ("/camera", [none, some wEmptyElem, some wElem])]

/-- Metadata declaring `/camera` as the only image-type stream. -/
def wMeta : Metadata :=
  { start_time := 0, end_time := 1,
    streams := [("/camera", { type := "image" }), ("/lidar", { type := "point" })] }

/-- A loader state on which `getImageFrames` succeeds. -/
def wState : LoaderState Unit :=
  { metadata := some wMeta, timestamp := none, logSynchronizer := none,
    streams := some wStrs }

/-- The timestamps value of `wState`. -/
def wTs : List (Option JSNum) := [some (.fin 1000), some (.fin 2000), some (.fin 3000)]

/-- Witness for the amended C4 theorem at a concrete aligned state. -/
theorem getImageFrames_amended_witness :
    wState.streams = some wStrs ∧
    getImageStreamNames wState = some ["/camera"] ∧
    getTimestamps wState = .ok (some wTs) ∧
    (∃ out strs2,
      LoaderState.getImageFrames wState =
        .ok (some out, { wState with streams := some strs2 }) ∧
      out.length = 1) := by
  have hok : NamesOk ["/camera"] wStrs := by
    intro n hn
    simp at hn
    subst hn
    refine ⟨[none, some wEmptyElem, some wElem], rfl, ?_⟩
    intro el hm
    simp at hm
    rcases hm with h | h <;> subst h <;> simp [wEmptyElem, wElem]
  obtain ⟨out, strs2, heq, hlen, _⟩ :=
    getImageFrames_amended wState wStrs ["/camera"] wTs rfl rfl rfl (by simp) hok
  exact ⟨rfl, rfl, rfl, out, strs2, heq, hlen⟩

/-- C5 (amended): a read of `getCurrentFrame` changes none of the values
stored under the `metadata`, `timestamp` and `streams` keys (only the
stored synchronizer's recorded time); a successful read of
`getImageFrames` changes none of the values stored under the `metadata`,
`timestamp` and `logSynchronizer` keys and rewrites the `streams` value
only in the `timestamp` field of the first image of each processed
entry — stream names, order, entry times, image payloads and image
tails are all preserved. -/
theorem selector_reads_amended {F : Type} (s : LoaderState F) :
    ((LoaderState.getCurrentFrame s).2.metadata = s.metadata ∧
     (LoaderState.getCurrentFrame s).2.timestamp = s.timestamp ∧
     (LoaderState.getCurrentFrame s).2.streams = s.streams) ∧
    (∀ r s2, LoaderState.getImageFrames s = .ok (r, s2) →
      s2.metadata = s.metadata ∧ s2.timestamp = s.timestamp ∧
      s2.logSynchronizer = s.logSynchronizer ∧
      ((s.streams = none → s2.streams = none) ∧
        ∀ strs, s.streams = some strs →
          ∃ strs2, s2.streams = some strs2 ∧ streamsPreserved strs strs2)) := by
  obtain ⟨md, ts0, ls, strs⟩ := s
  constructor
  · cases ls <;> cases md <;> cases ts0 <;> try exact ⟨rfl, rfl, rfl⟩
    rename_i t
    cases t <;> exact ⟨rfl, rfl, rfl⟩
  · intro r s2 h
    rw [getImageFrames_def] at h
    cases hts : getTimestamps (LoaderState.mk md ts0 ls strs) with
    | error e => rw [hts] at h; simp [Except.bind] at h
    | ok tsr =>
        rw [hts] at h
        simp only [Except.bind] at h
        cases hstrs : strs with
        | none =>
            rw [hstrs] at h
            have h' : (Except.ok (none, LoaderState.mk md ts0 ls none) :
                Except JSErr _) = .ok (r, s2) := h
            simp only [Except.ok.injEq, Prod.mk.injEq] at h'
            obtain ⟨hr, hs2⟩ := h'
            subst hs2
            exact ⟨rfl, rfl, rfl, fun _ => rfl, fun strs' hstrs' => by simp at hstrs'⟩
        | some strs0 =>
            rw [hstrs] at h
            cases hnames : getImageStreamNames (LoaderState.mk md ts0 ls strs) with
            | none =>
                have hnames' :
                    getImageStreamNames (LoaderState.mk md ts0 ls (some strs0)) =
                      none := by rw [← hstrs]; exact hnames
                rw [hnames'] at h
                have h' : (Except.ok (none, LoaderState.mk md ts0 ls (some strs0)) :
                    Except JSErr _) = .ok (r, s2) := h
                simp only [Except.ok.injEq, Prod.mk.injEq] at h'
                obtain ⟨hr, hs2⟩ := h'
                subst hs2
                refine ⟨rfl, rfl, rfl, fun hc => by simp at hc, ?_⟩
                intro strs' hstrs'
                simp only [Option.some.injEq] at hstrs'
                subst hstrs'
                exact ⟨strs0, rfl, streamsPreserved_refl strs0⟩
            | some names =>
                have hnames' :
                    getImageStreamNames (LoaderState.mk md ts0 ls (some strs0)) =
                      some names := by rw [← hstrs]; exact hnames
                rw [hnames'] at h
                have h' : (processStreams tsr names strs0).bind
                    (fun r0 => Except.ok (some r0.1,
                      { LoaderState.mk md ts0 ls (some strs0) with
                        streams := some r0.2 })) = .ok (r, s2) := h
                cases hps : processStreams tsr names strs0 with
                | error e => rw [hps] at h'; simp [Except.bind] at h'
                | ok rr =>
                    rw [hps] at h'
                    simp only [Except.bind, Except.ok.injEq, Prod.mk.injEq] at h'
                    obtain ⟨hr, hs2⟩ := h'
                    subst hs2
                    refine ⟨rfl, rfl, rfl, fun hc => by simp at hc, ?_⟩
                    intro strs' hstrs'
                    simp only [Option.some.injEq] at hstrs'
                    subst hstrs'
                    exact ⟨rr.2, rfl,
                      processStreams_ok_preserved tsr names strs0 rr.1 rr.2 hps⟩

/-- An image payload stored under the `/camera` stream. -/
def camImage : ImagePayload := { timestamp := none, payload := 7 }

/-- The `/camera` stream entry holding `camImage`. -/
def camElem : StreamElem := { time := none, images := some [camImage] }

/-- The single vehicle pose entry, at time 42. -/
def poseElem : StreamElem := { time := some (.fin 42), images := none }

/-- The streams value before the read. -/
def camStrs : Streams :=
  [("vehicle-pose", [some poseElem]), ("/camera", [some camElem])]

/-- Metadata declaring `/camera` as an image stream. -/
def camMeta : Metadata :=
  { start_time := 0, end_time := 1, streams := [("/camera", { type := "image" })] }

/-- The loader state before the read. -/
def camState : LoaderState Unit :=
  { metadata := some camMeta, timestamp := none, logSynchronizer := none,
    streams := some camStrs }

/-- `camImage` after the read: the pose timestamp, scaled by 1/1000, has
been assigned into it. -/
def camImage2 : ImagePayload :=
  { timestamp := some (divBy1000 (some (.fin 42))), payload := 7 }

/-- The `/camera` entry after the read. -/
def camElem2 : StreamElem := { time := none, images := some [camImage2] }

/-- The streams value after the read. -/
def camStrs2 : Streams :=
  [("vehicle-pose", [some poseElem]), ("/camera", [some camElem2])]

/-- C5 counterexample: reading the `getImageFrames` selector mutates the
value stored under the `streams` key — the stored `/camera` entry's
first image acquires a `timestamp` field, so the read is not pure. -/
theorem getImageFrames_mutates_counterexample :
    LoaderState.getImageFrames camState =
      .ok (some [("/camera", [some camImage2])],
        { camState with streams := some camStrs2 }) ∧
    camStrs.lookup "/camera" = some [some camElem] ∧
    camStrs2.lookup "/camera" = some [some camElem2] ∧
    camElem2 ≠ camElem :=
  ⟨rfl, rfl, rfl, by decide⟩

/-- Witness for the amended C5 theorem at a concrete state. -/
theorem selector_reads_amended_witness :
    (LoaderState.getCurrentFrame camState).2.streams = camState.streams ∧
    (∃ strs2,
      ({ camState with streams := some camStrs2 } : LoaderState Unit).streams =
        some strs2 ∧
      streamsPreserved camStrs strs2) := by
  have h := selector_reads_amended camState
  have h2 := h.2 (some [("/camera", [some camImage2])])
    ({ camState with streams := some camStrs2 }) (by rfl)
  exact ⟨h.1.2.2, h2.2.2.2.2 camStrs rfl⟩

/-- A raw field value of an OXTS packet as handed to the converter by the
external parser (`loadOxtsPackets`): a number, a numeric string
(carrying the number it denotes), a non-numeric string, or `undefined`
when the field is missing. -/
inductive RawVal : Type
  | num (q : ℚ)
  | numStr (q : ℚ)
  | badStr
  | undef
  deriving DecidableEq, Repr

/-- JavaScript `Number(...)` coercion of a raw field value: numbers and
numeric strings yield their value; a non-numeric string or `undefined`
yields NaN. -/
def jsNumber : RawVal → JSNum
  | .num q => .fin q
  | .numStr q => .fin q
  | .badStr => .nan
  | .undef => .nan

/-- The fields destructured from one OXTS packet by `_convertPoseEntry`
(`undef` when absent from the record). -/
structure OxtsPacket : Type where
  lat : RawVal
  lon : RawVal
  alt : RawVal
  roll : RawVal
  pitch : RawVal
  yaw : RawVal
  vn : RawVal
  ve : RawVal
  vf : RawVal
  vl : RawVal
  vu : RawVal
  ax : RawVal
  ay : RawVal
  az : RawVal
  af : RawVal
  al : RawVal
  au : RawVal
  wx : RawVal
  wy : RawVal
  wz : RawVal
  wf : RawVal
  wl : RawVal
  wu : RawVal
  deriving DecidableEq, Repr

/-- The `pose` record built by `_convertPoseEntry`: the timestamp passed
through unchanged (`undefined` when the index is out of range of the
timestamps array) and the `Number(...)`-coerced coordinates. -/
structure VehiclePose : Type where
  time : Option ℚ
  latitude : JSNum
  longitude : JSNum
  altitude : JSNum
  roll : JSNum
  pitch : JSNum
  yaw : JSNum
  deriving DecidableEq, Repr

/-- The `velocity` record built by `_convertPoseEntry`. -/
structure VelocitySample : Type where
  timestamp : Option ℚ
  velocityNorth : JSNum
  velocityEast : JSNum
  velocityForward : JSNum
  velocityLeft : JSNum
  velocityUpward : JSNum
  angularRateX : JSNum
  angularRateY : JSNum
  angularRateZ : JSNum
  angularRateForward : JSNum
  angularRateLeft : JSNum
  angularRateUpward : JSNum
  deriving DecidableEq, Repr

/-- The `acceleration` record built by `_convertPoseEntry`. -/
structure AccelerationSample : Type where
  timestamp : Option ℚ
  accelerationX : JSNum
  accelerationY : JSNum
  accelerationZ : JSNum
  accelerationForward : JSNum
  accelerationLeft : JSNum
  accelerationUpward : JSNum
  deriving DecidableEq, Repr

/-- One decoded frame: `{pose, velocity, acceleration}`. -/
structure FrameEntry : Type where
  pose : VehiclePose
  velocity : VelocitySample
  acceleration : AccelerationSample
  deriving DecidableEq, Repr

/-- `_convertPoseEntry(oxts, timestamp)`: destructure the packet and build
the three records, coercing every coordinate with `Number(...)` and
passing the timestamp through unchanged. -/
def convertPoseEntry (oxts : OxtsPacket) (timestamp : Option ℚ) : FrameEntry :=
  { pose :=
      { time := timestamp
        latitude := jsNumber oxts.lat
        longitude := jsNumber oxts.lon
        altitude := jsNumber oxts.alt
        roll := jsNumber oxts.roll
        pitch := jsNumber oxts.pitch
        yaw := jsNumber oxts.yaw }
    velocity :=
      { timestamp := timestamp
        velocityNorth := jsNumber oxts.vn
        velocityEast := jsNumber oxts.ve
        velocityForward := jsNumber oxts.vf
        velocityLeft := jsNumber oxts.vl
        velocityUpward := jsNumber oxts.vu
        angularRateX := jsNumber oxts.wx
        angularRateY := jsNumber oxts.wy
        angularRateZ := jsNumber oxts.wz
        angularRateForward := jsNumber oxts.wf
        angularRateLeft := jsNumber oxts.wl
        angularRateUpward := jsNumber oxts.wu }
    acceleration :=
      { timestamp := timestamp
        accelerationX := jsNumber oxts.ax
        accelerationY := jsNumber oxts.ay
        accelerationZ := jsNumber oxts.az
        accelerationForward := jsNumber oxts.af
        accelerationLeft := jsNumber oxts.al
        accelerationUpward := jsNumber oxts.au } }

/-- A fully numeric OXTS packet. -/
def oxtsBase : OxtsPacket :=
  { lat := .num 1, lon := .num 2, alt := .num 3, roll := .num 4, pitch := .num 5,
    yaw := .num 6, vn := .num 7, ve := .num 8, vf := .num 9, vl := .num 10,
    vu := .num 11, ax := .num 12, ay := .num 13, az := .num 14, af := .num 15,
    al := .num 16, au := .num 17, wx := .num 18, wy := .num 19, wz := .num 20,
    wf := .num 21, wl := .num 22, wu := .num 23 }

/-- `oxtsBase` with the `lat` field missing. -/
def oxtsMissingLat : OxtsPacket := { oxtsBase with lat := .undef }

/-- C6 counterexample: with the `lat` field missing from the record,
`_convertPoseEntry` does not fail with any error — it silently returns a
frame whose pose carries `latitude = NaN` while all other fields are
converted normally. -/
theorem convertPoseEntry_counterexample :
    oxtsMissingLat.lat = RawVal.undef ∧
    (convertPoseEntry oxtsMissingLat (some 0)).pose.latitude = JSNum.nan ∧
    (convertPoseEntry oxtsMissingLat (some 0)).pose.longitude = JSNum.fin 2 ∧
    (convertPoseEntry oxtsMissingLat (some 0)).pose.time = some 0 :=
  ⟨rfl, rfl, rfl, rfl⟩

/-- C6 (amended): every coordinate of the produced pose, velocity and
acceleration is the `Number(...)` coercion of the corresponding raw
field, and the `time`/`timestamp` fields are the given timestamp passed
through unchanged; a missing or non-numeric field does not fail — its
`Number(...)` coercion is silently NaN. -/
theorem convertPoseEntry_amended (oxts : OxtsPacket) (timestamp : Option ℚ) :
    ((convertPoseEntry oxts timestamp).pose.time = timestamp ∧
     (convertPoseEntry oxts timestamp).velocity.timestamp = timestamp ∧
     (convertPoseEntry oxts timestamp).acceleration.timestamp = timestamp) ∧
    ((convertPoseEntry oxts timestamp).pose.latitude = jsNumber oxts.lat ∧
     (convertPoseEntry oxts timestamp).pose.longitude = jsNumber oxts.lon ∧
     (convertPoseEntry oxts timestamp).pose.altitude = jsNumber oxts.alt ∧
     (convertPoseEntry oxts timestamp).pose.roll = jsNumber oxts.roll ∧
     (convertPoseEntry oxts timestamp).pose.pitch = jsNumber oxts.pitch ∧
     (convertPoseEntry oxts timestamp).pose.yaw = jsNumber oxts.yaw) ∧
    ((convertPoseEntry oxts timestamp).velocity.velocityNorth = jsNumber oxts.vn ∧
     (convertPoseEntry oxts timestamp).velocity.velocityEast = jsNumber oxts.ve ∧
     (convertPoseEntry oxts timestamp).velocity.velocityForward = jsNumber oxts.vf ∧
     (convertPoseEntry oxts timestamp).velocity.velocityLeft = jsNumber oxts.vl ∧
     (convertPoseEntry oxts timestamp).velocity.velocityUpward = jsNumber oxts.vu ∧
     (convertPoseEntry oxts timestamp).velocity.angularRateX = jsNumber oxts.wx ∧
     (convertPoseEntry oxts timestamp).velocity.angularRateY = jsNumber oxts.wy ∧
     (convertPoseEntry oxts timestamp).velocity.angularRateZ = jsNumber oxts.wz ∧
     (convertPoseEntry oxts timestamp).velocity.angularRateForward = jsNumber oxts.wf ∧
     (convertPoseEntry oxts timestamp).velocity.angularRateLeft = jsNumber oxts.wl ∧
     (convertPoseEntry oxts timestamp).velocity.angularRateUpward = jsNumber oxts.wu) ∧
    ((convertPoseEntry oxts timestamp).acceleration.accelerationX = jsNumber oxts.ax ∧
     (convertPoseEntry oxts timestamp).acceleration.accelerationY = jsNumber oxts.ay ∧
     (convertPoseEntry oxts timestamp).acceleration.accelerationZ = jsNumber oxts.az ∧
     (convertPoseEntry oxts timestamp).acceleration.accelerationForward = jsNumber oxts.af ∧
     (convertPoseEntry oxts timestamp).acceleration.accelerationLeft = jsNumber oxts.al ∧
     (convertPoseEntry oxts timestamp).acceleration.accelerationUpward = jsNumber oxts.au) ∧
    (∀ r : RawVal, r = RawVal.undef ∨ r = RawVal.badStr → jsNumber r = JSNum.nan) := by
  refine ⟨⟨rfl, rfl, rfl⟩, ⟨rfl, rfl, rfl, rfl, rfl, rfl⟩,
    ⟨rfl, rfl, rfl, rfl, rfl, rfl, rfl, rfl, rfl, rfl, rfl⟩,
    ⟨rfl, rfl, rfl, rfl, rfl, rfl⟩, ?_⟩
  intro r h
  rcases h with h | h <;> subst h <;> rfl

/-- Witness for the amended C6 theorem at a concrete record. -/
theorem convertPoseEntry_amended_witness :
    (convertPoseEntry oxtsMissingLat (some 5)).pose.time = some 5 ∧
    (convertPoseEntry oxtsMissingLat (some 5)).pose.latitude = JSNum.nan := by
  have h := convertPoseEntry_amended oxtsMissingLat (some 5)
  refine ⟨h.1.1, ?_⟩
  rw [h.2.1.1]
  exact h.2.2.2.2 RawVal.undef (Or.inl rfl)

/-- A pose sample as consumed by the trajectory builder (spec §3). -/
structure PoseSample : Type where
  time : ℚ
  latitude : ℚ
  longitude : ℚ
  altitude : ℚ
  roll : ℚ
  pitch : ℚ
  yaw : ℚ
  deriving DecidableEq, Repr

/-- Modelled from the spec: `getPoseOffset(p1, p2)` is imported from
`./common`, which is not among the sources.  Per §4.3 it computes the
geodetic displacement from the anchor `p1` to `p2`, projects it into a
local Cartesian (tangent-plane) frame — the longitude difference scaled
by `lonScale` times the cosine evaluation of the anchor latitude, the
latitude difference scaled by `latScale` — and rotates the displacement
by `-p1.yaw` (via the abstract cosine/sine evaluations `cosf`/`sinf`),
so the anchor's offset from itself is exactly `(0, 0)`. -/
def getPoseOffset (cosf sinf : ℚ → ℚ) (latScale lonScale : ℚ)
    (p1 p2 : PoseSample) : ℚ × ℚ :=
  let dx := (p2.longitude - p1.longitude) * lonScale * cosf p1.latitude
  let dy := (p2.latitude - p1.latitude) * latScale
  (dx * cosf p1.yaw + dy * sinf p1.yaw, dy * cosf p1.yaw - dx * sinf p1.yaw)

/-- `_convertTrajectory`:
`motions.map((m, i) => getPoseOffset(motions[0], m))` — on an empty
window the map body never runs and the result is the empty array. -/
def convertTrajectory (cosf sinf : ℚ → ℚ) (latScale lonScale : ℚ) :
    List PoseSample → List (ℚ × ℚ)
  | [] => []
  | m0 :: rest => (m0 :: rest).map (getPoseOffset cosf sinf latScale lonScale m0)

/-- C7 counterexample: an empty window does not fail with any error —
`_convertTrajectory` returns the empty vertex list. -/
theorem convertTrajectory_empty_counterexample :
    convertTrajectory (fun _ => 1) (fun _ => 0) 1 1 [] = [] :=
  rfl

/-- C7 (amended): an empty window yields the empty vertex list (no
error is raised), and a window of length 1 yields exactly one vertex,
which is `(0, 0)`. -/
theorem convertTrajectory_small_amended (cosf sinf : ℚ → ℚ)
    (latScale lonScale : ℚ) (p : PoseSample) :
    convertTrajectory cosf sinf latScale lonScale [] = [] ∧
    convertTrajectory cosf sinf latScale lonScale [p] = [(0, 0)] := by
  refine ⟨rfl, ?_⟩
  simp [convertTrajectory, getPoseOffset]

/-- A concrete pose (time 0, latitude 10, longitude 20, yaw 1). -/
def pDemo : PoseSample :=
  { time := 0, latitude := 10, longitude := 20, altitude := 0,
    roll := 0, pitch := 0, yaw := 1 }

/-- A second concrete pose. -/
def pDemo2 : PoseSample :=
  { time := 1, latitude := 11, longitude := 21, altitude := 0,
    roll := 0, pitch := 0, yaw := 2 }

/-- Witness for the amended C7 theorem at concrete projection data. -/
theorem convertTrajectory_small_amended_witness :
    convertTrajectory (fun _ => 1) (fun _ => 0) 1 1 [] = [] ∧
    convertTrajectory (fun _ => 1) (fun _ => 0) 1 1 [pDemo] = [(0, 0)] :=
  convertTrajectory_small_amended (fun _ => 1) (fun _ => 0) 1 1 pDemo

/-- C8: for every non-empty window, the anchor is the pose at the first
window element, every vertex is that element's pose offset from the
anchor, and the first vertex is exactly `(0, 0)`. -/
theorem convertTrajectory_anchor (cosf sinf : ℚ → ℚ) (latScale lonScale : ℚ)
    (motions : List PoseSample) (m0 : PoseSample)
    (h : motions.head? = some m0) :
    convertTrajectory cosf sinf latScale lonScale motions =
      motions.map (getPoseOffset cosf sinf latScale lonScale m0) ∧
    (convertTrajectory cosf sinf latScale lonScale motions).head? =
      some (0, 0) := by
  match motions with
  | [] => simp at h
  | m :: rest =>
      have hm : m0 = m := by
        simp at h
        exact h.symm
      subst hm
      refine ⟨rfl, ?_⟩
      show (getPoseOffset cosf sinf latScale lonScale m0 m0 ::
        rest.map (getPoseOffset cosf sinf latScale lonScale m0)).head? = some (0, 0)
      simp [getPoseOffset]

/-- Witness for C8 on a concrete two-pose window. -/
theorem convertTrajectory_anchor_witness :
    ([pDemo, pDemo2].head? = some pDemo) ∧
    (convertTrajectory (fun _ => 1) (fun _ => 0) 1 1 [pDemo, pDemo2]).head? =
      some (0, 0) :=
  ⟨rfl, (convertTrajectory_anchor (fun _ => 1) (fun _ => 0) 1 1
    [pDemo, pDemo2] pDemo rfl).2⟩

/-- `load()`, modelled from the spec at its I/O boundary: reading
`timestamps.txt` (`getTimestamps`) and parsing each per-frame GPS file
(`fs.readFileSync` + `loadOxtsPackets`) are external parsers not among
the sources, so `timestamps` and `records` stand for their outputs in
sorted file order.  Each record is converted with
`_convertPoseEntry(oxts, timestamps[i])`, where `timestamps[i]` is
`undefined` past the end of the array.  `loadFrames` carries the running
index of the `map`. -/
def loadFrames (timestamps : List ℚ) : List OxtsPacket → ℕ → List FrameEntry
  | [], _ => []
  | oxts :: rest, i =>
      convertPoseEntry oxts (timestamps.get? i) :: loadFrames timestamps rest (i + 1)

/-- `this.poses` after `load()`. -/
def load (timestamps : List ℚ) (records : List OxtsPacket) : List FrameEntry :=
  loadFrames timestamps records 0

theorem loadFrames_length (timestamps : List ℚ) :
    ∀ (records : List OxtsPacket) (i0 : ℕ),
      (loadFrames timestamps records i0).length = records.length
  | [], _ => rfl
  | _ :: rest, i0 => congrArg Nat.succ (loadFrames_length timestamps rest (i0 + 1))

theorem loadFrames_get? (timestamps : List ℚ) :
    ∀ (records : List OxtsPacket) (i0 i : ℕ) (hr : i < records.length),
      (loadFrames timestamps records i0).get? i =
        some (convertPoseEntry (records.get ⟨i, hr⟩) (timestamps.get? (i0 + i))) := by
  intro records
  induction records with
  | nil => intro i0 i hr; exact absurd hr (Nat.not_lt_zero i)
  | cons oxts rest ih =>
      intro i0 i hr
      match i with
      | 0 => simp [loadFrames]
      | Nat.succ i' =>
          have hr' : i' < rest.length := Nat.succ_lt_succ_iff.mp (by simpa using hr)
          have harith : i0 + 1 + i' = i0 + (i' + 1) := by omega
          have hih := ih (i0 + 1) i' hr'
          rw [harith] at hih
          exact hih

/-- C9: after loading, for every frame index in range the stored frame's
pose carries the i-th timestamp, and so do its velocity and acceleration
records: `frame(i).pose.time == timestamps[i]`. -/
theorem load_pose_time (timestamps : List ℚ) (records : List OxtsPacket)
    (i : ℕ) (hi : i < records.length) :
    ∃ fr, (load timestamps records).get? i = some fr ∧
      fr.pose.time = timestamps.get? i ∧
      fr.velocity.timestamp = timestamps.get? i ∧
      fr.acceleration.timestamp = timestamps.get? i := by
  refine ⟨convertPoseEntry (records.get ⟨i, hi⟩) (timestamps.get? i), ?_, rfl, rfl, rfl⟩
  have h := loadFrames_get? timestamps records 0 i hi
  rw [Nat.zero_add] at h
  exact h

/-- Witness for C9 on a concrete two-frame recording. -/
theorem load_pose_time_witness :
    ∃ fr, (load [10, 20] [oxtsBase, oxtsBase]).get? 1 = some fr ∧
      fr.pose.time = some 20 ∧
      fr.velocity.timestamp = some 20 ∧
      fr.acceleration.timestamp = some 20 := by
  have h := load_pose_time [10, 20] [oxtsBase, oxtsBase] 1 (by decide)
  exact h
